import Mathlib

/-!
Shallow embedding of the reliability layer of the `system-design-lab`
repository, and proofs about it.

Embedded source files:
* `06-rate-limiting-and-fault-tolerance/src/middlewares/idempotency.js`
  (`idempotencyMiddleware`, `saveIdempotentResponse`)
* `06-rate-limiting-and-fault-tolerance/src/utils/withRetry.js` (`withRetry`)
* `07-monitoring-logging-and-metrics/src/routes/metrics.js`
  (the `POST /` create-task handler and the `PUT /:taskId` update-task handler)
* `07-monitoring-logging-and-metrics/src/workers/notificationWorker.js`
  (`startWorker` consume callback, `fakeEmailSender`, `handleFailure`)
* the RabbitMQ topology helper (`configureQueueTopology`): main dead-letters
  to retry, retry dead-letters back to main after its message TTL.

Modelling conventions:
* The Redis cache is an association list from string keys to structured
  values.  The JS code stores JSON strings; we store the parsed structure
  (`CacheVal.respVal status body`) directly, and the lock sentinel string
  `"locked"` as `CacheVal.lockVal`.  Key strings are built exactly as in the
  source (`"idem:response:" ++ k`, `"idem:lock:" ++ k`, `"idem:" ++ k`).
* TTL expiry is not modelled: every claim under study is scoped to "within
  the TTL" / "while the lock entry exists", so entries persist until an
  explicit delete.
* Async control flow is modelled by explicit state passing; each await on a
  shared resource in the JS source is one atomic step when interleaving
  matters (claim C1's step system).
* Fallible externals (Prisma calls, the broker, the random email failure)
  are oracles passed in as explicit parameters, so every branch of the
  source remains present in the embedding.
-/

/-- A structured response body: either a bare `{ message }` object or the
`{ status, message, data }` shape the task handlers send. -/
inductive RespBody where
  | msg (message : String)
  | apiResp (status : Nat) (message : String) (taskId : Nat)
  deriving DecidableEq, Repr

/-- A value stored in the Redis cache: the lock sentinel (`"locked"`) or a
serialized response `{ status, body }`. -/
inductive CacheVal where
  | lockVal
  | respVal (status : Nat) (body : RespBody)
  deriving DecidableEq, Repr

/-- The cache: an association list from key strings to values.  No TTLs
(see module docstring). -/
def Cache := List (String × CacheVal)

instance : DecidableEq Cache := by unfold Cache; infer_instance

/-- `redisClient.get key`. -/
def cacheGet (c : Cache) (key : String) : Option CacheVal :=
  (c.find? (fun p => p.1 = key)).map (fun p => p.2)

/-- `redisClient.set key v` (plain set, overwriting). -/
def cacheSet (c : Cache) (key : String) (v : CacheVal) : Cache :=
  (key, v) :: c.filter (fun p => p.1 ≠ key)

/-- `redisClient.del key`. -/
def cacheDel (c : Cache) (key : String) : Cache :=
  c.filter (fun p => p.1 ≠ key)

/-- `redisClient.set key v { NX: true, PX: ttl }`: atomically create the
entry if absent; returns whether it was acquired, and the new cache. -/
def cacheSetNX (c : Cache) (key : String) (v : CacheVal) : Bool × Cache :=
  match cacheGet c key with
  | some _ => (false, c)
  | none => (true, (key, v) :: c)

/-- The `idem:response:<k>` key read by `idempotencyMiddleware` and written
inline by the POST create-task handler. -/
def respKeyOf (k : String) : String := "idem:response:" ++ k

/-- The `idem:lock:<k>` key. -/
def lockKeyOf (k : String) : String := "idem:lock:" ++ k

/-- The `idem:<k>` key written by `saveIdempotentResponse` (note: NOT the
`idem:response:<k>` key the middleware reads). -/
def bareKeyOf (k : String) : String := "idem:" ++ k

/-- Which Redis operations currently throw (`withRetry` around the transport
already exhausted).  `getFails` covers the `redisClient.get` in the
middleware, `setFails` the `redisClient.set ... NX`. -/
structure CacheHealth where
  getFails : Bool
  setFails : Bool
  deriving DecidableEq, Repr

/-- Outcome of running `idempotencyMiddleware` on a request: either control
passes to the route handler (`next()`; `idemKey = some k` iff the lock was
acquired and `req.idempotencyKey` was set) or a response is sent directly. -/
inductive MWOut where
  | callNext (idemKey : Option String)
  | respond (status : Nat) (body : RespBody)
  deriving DecidableEq, Repr

/-- `idempotencyMiddleware` from
`06-rate-limiting-and-fault-tolerance/src/middlewares/idempotency.js`:
1. no `idempotency-key` header → `next()` (bypass);
2. `get("idem:response:" ++ k)`: a throwing cache → 503; a cached
   `{status, body}` → replay it; a non-JSON value under that key would make
   `JSON.parse` throw, landing in the same catch → 503;
3. `set(lockKey, "locked", NX)`: throw → 503; not acquired → 409 with the
   in-progress message; acquired → `next()` with `req.idempotencyKey = k`. -/
def idempotencyMiddleware (key? : Option String) (h : CacheHealth) (c : Cache) :
    MWOut × Cache :=
  match key? with
  | none => (MWOut.callNext none, c)
  | some k =>
    if h.getFails then
      (MWOut.respond 503 (RespBody.msg "Idempotency service unavailable"), c)
    else
      match cacheGet c (respKeyOf k) with
      | some (CacheVal.respVal st b) => (MWOut.respond st b, c)
      | some CacheVal.lockVal =>
        -- JSON.parse "locked" throws; the catch answers 503
        (MWOut.respond 503 (RespBody.msg "Idempotency service unavailable"), c)
      | none =>
        if h.setFails then
          (MWOut.respond 503 (RespBody.msg "Idempotency service unavailable"), c)
        else
          match cacheSetNX c (lockKeyOf k) CacheVal.lockVal with
          | (true, c') => (MWOut.callNext (some k), c')
          | (false, _) =>
            (MWOut.respond 409
              (RespBody.msg "Request already in progress. Try again shortly."), c)

/-- `saveIdempotentResponse` from the same file: stores
`JSON.stringify {status, body}` under `"idem:" ++ key` with a 10-minute
TTL. -/
def saveIdempotentResponse (key : String) (status : Nat) (body : RespBody)
    (c : Cache) : Cache :=
  cacheSet c (bareKeyOf key) (CacheVal.respVal status body)

/-! ### withRetry (`06-rate-limiting-and-fault-tolerance/src/utils/withRetry.js`)

The wrapped operation is a pure oracle `op : Nat → Except E A` giving the
outcome of its `i`-th invocation (0-based).  The run records the settled
promise value, the number of invocations, and the total milliseconds slept
in backoff. -/

/-- How the promise returned by `withRetry` settles. -/
inductive RetryOutcome (E A : Type) where
  | ok (a : A)      -- resolves with the operation's value
  | err (e : E)     -- rejects with the thrown error
  | undef           -- resolves with `undefined` (loop body never ran)
  deriving DecidableEq, Repr

/-- A finished `withRetry` run: settled value, number of calls to the
operation, and total backoff delay in ms. -/
structure RetryRun (E A : Type) where
  outcome : RetryOutcome E A
  calls : Nat
  delay : Nat
  deriving DecidableEq, Repr

/-- The `while (attempt < retries)` loop.  `fuel` is `retries - attempt`,
which bounds the remaining iterations; the JS loop re-enters only while
`attempt < retries`, so with the top-level call's `fuel = retries` the
`fuel = 0` case is reached exactly when `retries = 0` (the loop body never
runs and the async function resolves `undefined`). -/
def withRetryGo {E A : Type} (op : Nat → Except E A) (shouldRetry : E → Bool)
    (retries baseDelay : Nat) : Nat → Nat → Nat → RetryRun E A
  | 0, attempt, dAcc => ⟨RetryOutcome.undef, attempt, dAcc⟩
  | fuel + 1, attempt, dAcc =>
    match op attempt with
    | Except.ok a => ⟨RetryOutcome.ok a, attempt + 1, dAcc⟩
    | Except.error e =>
      -- `attempt++; if (attempt >= retries || !shouldRetry(error)) throw error;`
      if attempt + 1 ≥ retries || !shouldRetry e then
        ⟨RetryOutcome.err e, attempt + 1, dAcc⟩
      else
        -- `const delay = baseDelay * Math.pow(2, attempt); await sleep(delay)`
        withRetryGo op shouldRetry retries baseDelay fuel (attempt + 1)
          (dAcc + baseDelay * 2 ^ (attempt + 1))

/-- `withRetry(fn, { retries, baseDelay, shouldRetry })`. -/
def withRetry {E A : Type} (op : Nat → Except E A) (retries baseDelay : Nat)
    (shouldRetry : E → Bool) : RetryRun E A :=
  withRetryGo op shouldRetry retries baseDelay retries 0 0

/-! ### Route handlers (`07-monitoring-logging-and-metrics/src/routes/metrics.js`) -/

/-- Prisma error codes the handlers branch on: `P2003` (foreign-key
constraint) and `P2025` (record not found); `other` covers any other thrown
error. -/
inductive DbErr where
  | p2003
  | p2025
  | other
  deriving DecidableEq, Repr

instance {E A : Type} [DecidableEq E] [DecidableEq A] : DecidableEq (Except E A) := fun x y =>
  match x, y with
  | Except.ok a, Except.ok b =>
    if h : a = b then isTrue (by rw [h]) else isFalse (by simp [h])
  | Except.error e, Except.error f =>
    if h : e = f then isTrue (by rw [h]) else isFalse (by simp [h])
  | Except.ok _, Except.error _ => isFalse (by simp)
  | Except.error _, Except.ok _ => isFalse (by simp)

/-- What the handler hands back to Express: a response sent with
`res.status(s).json(b)`, an error forwarded with `next(AppError(s, m))`, or
the bare `next()` at the top of the POST handler when no idempotency key was
set. -/
inductive HandlerOut where
  | sent (status : Nat) (body : RespBody)
  | nextErr (status : Nat) (message : String)
  | nextNoKey
  deriving DecidableEq, Repr

/-- The request fields the POST create-task handler branches on. -/
structure PostReq where
  idemKey : Option String
  userId : Option Nat
  categoryId : Option Nat
  deriving DecidableEq, Repr

/-- Oracles for the POST handler's external calls. -/
structure PostEnv where
  /-- `prisma.user.findUnique` found the user. -/
  userExists : Bool
  /-- `prisma.category.findUnique` found the category. -/
  categoryExists : Bool
  /-- `prisma.task.create`: the committed task's id, or the thrown error. -/
  createResult : Except DbErr Nat
  /-- `taskCreatedEventSchema.validate(event)` succeeded. -/
  eventValid : Bool
  /-- `withRetry(() => sendMessageToQueue(...))` resolved; `false` means the
  publish retries exhausted and the last error was thrown. -/
  publishOk : Bool
  deriving DecidableEq, Repr

/-- The `{ status: 201, message: "Task created successfully", data: task }`
body the POST handler both caches and sends. -/
def createdBody (taskId : Nat) : RespBody :=
  RespBody.apiResp 201 "Task created successfully" taskId

/-- `router.post("/")` create-task handler (metrics.js lines 392–500).
Returns the Express outcome, the final cache, and whether the database
mutation committed.  The whole `try` body runs under a `finally` that
deletes the lock key (`await redisClient.del(lockKey).catch(() => {})`), so
the lock delete is applied on every path below. -/
def postCreateTask (req : PostReq) (env : PostEnv) (c : Cache) :
    HandlerOut × Cache × Bool :=
  match req.idemKey with
  | none => (HandlerOut.nextNoKey, c, false)
  | some k =>
    let lockKey := lockKeyOf k
    let body : HandlerOut × Cache × Bool :=
      if req.userId.isSome && !env.userExists then
        (HandlerOut.nextErr 400 "User does not exist", c, false)
      else if req.categoryId.isSome && !env.categoryExists then
        (HandlerOut.nextErr 400 "Category does not exist", c, false)
      else
        match env.createResult with
        | Except.error DbErr.p2003 =>
          (HandlerOut.nextErr 400 "Invalid userId or categoryId", c, false)
        | Except.error _ =>
          (HandlerOut.nextErr 500 "Failed to create task", c, false)
        | Except.ok taskId =>
          -- `redisClient.set("idem:response:" ++ key, responsePayload, EX 3600)`
          let c1 := cacheSet c (respKeyOf k) (CacheVal.respVal 201 (createdBody taskId))
          -- `redisClient.del(lockKey)` (the in-line release before publish)
          let c2 := cacheDel c1 lockKey
          if !env.eventValid then
            (HandlerOut.nextErr 500 "Internal event formatting error", c2, true)
          else if !env.publishOk then
            -- the thrown broker error has no `.code === "P2003"`, so the
            -- catch falls through to `next(AppError(500, "Failed to create task"))`
            (HandlerOut.nextErr 500 "Failed to create task", c2, true)
          else
            (HandlerOut.sent 201 (createdBody taskId), c2, true)
    (body.1, cacheDel body.2.1 lockKey, body.2.2)

/-- The request fields the PUT update-task handler branches on. -/
structure PutReq where
  idemKey : Option String
  deriving DecidableEq, Repr

/-- Oracles for the PUT handler's external calls. -/
structure PutEnv where
  /-- `prisma.task.update`: the updated task's id, or the thrown error. -/
  updateResult : Except DbErr Nat
  /-- `sendMessageToQueue` (no retry wrapper here) resolved. -/
  publishOk : Bool
  deriving DecidableEq, Repr

/-- The `{ status: 200, message: "Task updated successfully", data }` body. -/
def updatedBody (taskId : Nat) : RespBody :=
  RespBody.apiResp 200 "Task updated successfully" taskId

/-- `router.put("/:taskId")` update-task handler (metrics.js lines 554–631).
Unlike the POST handler there is no `finally`: the lock is deleted only on
the success path (and the completed response is stored via
`saveIdempotentResponse`, i.e. under the `idem:<k>` key). -/
def putUpdateTask (req : PutReq) (env : PutEnv) (c : Cache) :
    HandlerOut × Cache × Bool :=
  match env.updateResult with
  | Except.error DbErr.p2025 =>
    (HandlerOut.nextErr 404 "Task not found. Please check the task ID.", c, false)
  | Except.error DbErr.p2003 =>
    (HandlerOut.nextErr 400
      "Invalid userId or categoryId. The referenced record does not exist.", c, false)
  | Except.error DbErr.other =>
    (HandlerOut.nextErr 500 "Failed to update task", c, false)
  | Except.ok taskId =>
    let c1 :=
      match req.idemKey with
      | some k => cacheDel (saveIdempotentResponse k 200 (updatedBody taskId) c) (lockKeyOf k)
      | none => c
    if !env.publishOk then
      -- `sendMessageToQueue` threw; the error has no Prisma code, so the
      -- catch ends in `next(AppError(500, "Failed to update task"))`
      (HandlerOut.nextErr 500 "Failed to update task", c1, true)
    else
      (HandlerOut.sent 200 (updatedBody taskId), c1, true)

/-! ### Notification worker
(`07-monitoring-logging-and-metrics/src/workers/notificationWorker.js`) -/

/-- The content of a delivered message as the consume callback sees it:
`malformed` — `JSON.parse(message.content.toString())` throws;
`invalid` — parses but fails `taskCreatedEventSchema.validate`;
`valid eventId? userId? type` — passes validation, with the optional
`metadata.eventId`, the optional `payload.userId`, and the `type` tag. -/
inductive MsgBody where
  | malformed
  | invalid
  | valid (eventId : Option String) (userId : Option Nat) (tp : String)
  deriving DecidableEq, Repr

/-- A broker message together with its `x-retry-count` header (0 when the
header is absent, as `headers["x-retry-count"] || 0` reads it). -/
structure WMsg where
  body : MsgBody
  retryCount : Nat
  deriving DecidableEq, Repr

/-- Outcome of `prisma.processedMessage.create`. -/
inductive InsertOutcome where
  | ok
  | uniqueConflict   -- unique constraint on eventId violated (racing worker)
  | otherErr
  deriving DecidableEq, Repr

/-- Oracles for the worker's external calls. -/
structure WorkerEnv where
  /-- `prisma.user.findUnique` in `fakeEmailSender` found the user. -/
  userFound : Bool
  /-- The `Math.random() < 0.5` branch in `fakeEmailSender` throws. -/
  randomFail : Bool
  /-- Result of the ledger insert, when reached. -/
  insertOutcome : InsertOutcome
  deriving DecidableEq, Repr

/-- `fakeEmailSender`: resolves silently when there is no `payload.userId`
or the user is not found; otherwise throws iff the random branch fires. -/
def fakeEmailSender (userId : Option Nat) (env : WorkerEnv) : Except Unit Unit :=
  match userId with
  | none => Except.ok ()
  | some _ =>
    if !env.userFound then Except.ok ()
    else if env.randomFail then Except.error ()
    else Except.ok ()

/-- The broker operations the consume callback performs on its channel, in
order.  `sendDLQ`/`sendRetry` republish `message.content`; only the retry
publish carries an `x-retry-count` header (the DLQ publish passes no
options, so headers are dropped). -/
inductive BrokerAction where
  | sendDLQ
  | sendRetry (newRetryCount : Nat)
  | ack
  deriving DecidableEq, Repr

/-- `MAX_RETRIES` in `handleFailure`. -/
def MAX_RETRIES : Nat := 3

/-- `handleFailure(channel, message)`: at or past the cap, republish the
content to the DLQ and ack; otherwise republish to the retry queue with the
incremented `x-retry-count` header and ack. -/
def handleFailure (m : WMsg) : List BrokerAction :=
  if m.retryCount ≥ MAX_RETRIES then
    [BrokerAction.sendDLQ, BrokerAction.ack]
  else
    [BrokerAction.sendRetry (m.retryCount + 1), BrokerAction.ack]

/-- The ledger: the `eventId`s with a `processedMessage` row. -/
def Ledger := List String

instance : DecidableEq Ledger := by unfold Ledger; infer_instance

/-- The `startWorker` consume callback, for one delivered message: returns
the channel actions performed and the ledger afterwards.  The whole body is
wrapped in a try/catch whose catch calls `handleFailure`; the throwing
paths are `JSON.parse` (malformed body), `fakeEmailSender`, and the ledger
insert. -/
def processMessage (env : WorkerEnv) (ledger : Ledger) (m : WMsg) :
    List BrokerAction × Ledger :=
  match m.body with
  | MsgBody.malformed => (handleFailure m, ledger)
  | MsgBody.invalid =>
    -- "Move to DLQ immediately - this isn't retryable"
    ([BrokerAction.sendDLQ, BrokerAction.ack], ledger)
  | MsgBody.valid none _ _ =>
    -- "Message missing ID, skipping"
    ([BrokerAction.ack], ledger)
  | MsgBody.valid (some eventId) userId _tp =>
    if ledger.contains eventId then
      -- "Message already processed, skipping"
      ([BrokerAction.ack], ledger)
    else
      match fakeEmailSender userId env with
      | Except.error _ => (handleFailure m, ledger)
      | Except.ok _ =>
        match env.insertOutcome with
        | InsertOutcome.ok => ([BrokerAction.ack], eventId :: ledger)
        | _ =>
          -- the insert threw; the generic catch runs handleFailure
          (handleFailure m, ledger)

/-! ### Queue topology (`configureQueueTopology` in the RabbitMQ helper)

Main dead-letters to retry; retry has a 5s message TTL and dead-letters
back to main (headers preserved).  Here the worker acks every delivery and
republishes failures itself via `handleFailure`, so the only topology edge
exercised is retry → main on TTL expiry. -/

/-- The three queues' contents. -/
structure QState where
  main : List WMsg
  retry : List WMsg
  dlq : List WMsg
  deriving DecidableEq, Repr

/-- Apply the channel actions of one processed delivery.  The delivered
message was already removed from `main` by the caller; `ack` confirms that
removal, the republishes append the content (with the stated header) to
the named queue. -/
def applyActions (m : WMsg) (acts : List BrokerAction) (q : QState) : QState :=
  acts.foldl
    (fun q a =>
      match a with
      | BrokerAction.ack => q
      | BrokerAction.sendDLQ => { q with dlq := q.dlq ++ [⟨m.body, 0⟩] }
      | BrokerAction.sendRetry rc => { q with retry := q.retry ++ [⟨m.body, rc⟩] })
    q

/-- Deliver the head of `main` to the worker and apply the resulting
actions.  Returns the delivered message and its actions alongside the new
system state (for stating trace properties). -/
def deliverOne (env : WorkerEnv) : QState × Ledger → QState × Ledger
  | (q, ledger) =>
    match q.main with
    | [] => (q, ledger)
    | m :: rest =>
      let (acts, ledger') := processMessage env ledger m
      (applyActions m acts { q with main := rest }, ledger')

/-- TTL expiry on the retry queue: every parked message is dead-lettered
back to `main`, headers preserved. -/
def retryTTLExpire : QState × Ledger → QState × Ledger
  | (q, ledger) => ({ q with main := q.main ++ q.retry, retry := [] }, ledger)

/-- One full round: the worker handles the head of `main`, then the retry
queue's TTL expires. -/
def workerRound (env : WorkerEnv) (s : QState × Ledger) : QState × Ledger :=
  retryTTLExpire (deliverOne env s)

/-! ## Theorems -/

/-- Specification of one `withRetryGo` run, by induction on the remaining
fuel.  `r.calls` is the index one past the last invocation; every earlier
invocation failed with a retryable error; the settled value comes verbatim
from the last invocation; the total backoff is the sum of
`baseDelay * 2 ^ k` over the failed-and-retried attempts `k`. -/
theorem withRetryGo_spec {E A : Type} (op : Nat → Except E A) (shouldRetry : E → Bool)
    (retries baseDelay : Nat) (fuel attempt dAcc : Nat)
    (hsum : fuel + attempt = retries) (hfuel : 1 ≤ fuel) (r : RetryRun E A)
    (hr : withRetryGo op shouldRetry retries baseDelay fuel attempt dAcc = r) :
    (attempt < r.calls ∧ r.calls ≤ retries) ∧
    r.outcome ≠ RetryOutcome.undef ∧
    (∀ a, r.outcome = RetryOutcome.ok a → op (r.calls - 1) = Except.ok a) ∧
    (∀ e, r.outcome = RetryOutcome.err e →
      op (r.calls - 1) = Except.error e ∧
        (r.calls = retries ∨ shouldRetry e = false)) ∧
    (∀ j, attempt ≤ j → j + 1 < r.calls →
      ∃ e, op j = Except.error e ∧ shouldRetry e = true) ∧
    r.delay = dAcc + ∑ k in Finset.Ico (attempt + 1) r.calls, baseDelay * 2 ^ k := by
  induction fuel generalizing attempt dAcc r with
  | zero => omega
  | succ fuel ih =>
    rw [withRetryGo] at hr
    split at hr
    · -- op attempt = Except.ok a
      rename_i a hop
      subst hr
      dsimp only
      refine ⟨⟨by omega, by omega⟩, by simp, ?_, by simp, ?_, by simp⟩
      · intro a' ha'
        simp only [RetryOutcome.ok.injEq] at ha'
        subst ha'
        simpa using hop
      · intro j hj hj'
        omega
    · -- op attempt = Except.error e
      rename_i e hop
      split at hr
      · -- stop condition true: throw the last error
        rename_i hstop
        subst hr
        dsimp only
        simp only [Bool.or_eq_true, decide_eq_true_eq, Bool.not_eq_true'] at hstop
        refine ⟨⟨by omega, by omega⟩, by simp, by simp, ?_, ?_, by simp⟩
        · intro e' he'
          simp only [RetryOutcome.err.injEq] at he'
          subst he'
          refine ⟨by simpa using hop, ?_⟩
          rcases hstop with h | h
          · left; omega
          · right; exact h
        · intro j hj hj'
          omega
      · -- retrying: sleep and recurse
        rename_i hstop
        simp only [Bool.or_eq_true, decide_eq_true_eq, Bool.not_eq_true',
          not_or, Bool.not_eq_false] at hstop
        obtain ⟨hlt, hretry⟩ := hstop
        have hsum' : fuel + (attempt + 1) = retries := by omega
        have hfuel' : 1 ≤ fuel := by omega
        obtain ⟨⟨h1, h2⟩, h3, h4, h5, h6, h7⟩ :=
          ih (attempt + 1) (dAcc + baseDelay * 2 ^ (attempt + 1)) hsum' hfuel' r hr
        refine ⟨⟨by omega, h2⟩, h3, h4, h5, ?_, ?_⟩
        · intro j hj hj'
          rcases Nat.eq_or_lt_of_le hj with hje | hjl
          · exact ⟨e, by rw [← hje]; exact hop, hretry⟩
          · exact h6 j hjl hj'
        · rw [h7]
          conv_rhs => rw [Finset.sum_eq_sum_Ico_succ_bot h1 (fun k => baseDelay * 2 ^ k)]
          ring

/-- C8: for every operation and policy with `maxAttempts ≥ 1` (`retries` in
the source), `withRetry` invokes the operation between 1 and `maxAttempts`
times; a resolved run's value is the last invocation's success and a
rejected run's error is the last invocation's failure, propagated
unchanged, with rejection only on exhaustion (`calls = retries`) or a
non-retryable error; every invocation before the last failed with a
retryable error (so it never retries after a success); and the total
backoff is exactly `∑ baseDelay * 2 ^ k` over the failed attempts
`k = 1 .. calls - 1` (attempt counter starting at 1) — in particular, with
`maxAttempts = 3`, `baseDelay = 100` and an operation failing twice then
succeeding, the operation runs exactly 3 times and the total wait is
`200 + 400 ≥ 100 + 200` ms. -/
theorem withRetry_policy_spec {E A : Type} (op : Nat → Except E A)
    (retries baseDelay : Nat) (shouldRetry : E → Bool)
    (hmax : 1 ≤ retries) (r : RetryRun E A)
    (hr : withRetry op retries baseDelay shouldRetry = r) :
    (1 ≤ r.calls ∧ r.calls ≤ retries) ∧
    r.outcome ≠ RetryOutcome.undef ∧
    (∀ a, r.outcome = RetryOutcome.ok a → op (r.calls - 1) = Except.ok a) ∧
    (∀ e, r.outcome = RetryOutcome.err e →
      op (r.calls - 1) = Except.error e ∧
        (r.calls = retries ∨ shouldRetry e = false)) ∧
    (∀ j, j + 1 < r.calls → ∃ e, op j = Except.error e ∧ shouldRetry e = true) ∧
    r.delay = ∑ k in Finset.Ico 1 r.calls, baseDelay * 2 ^ k := by
  obtain ⟨⟨h1, h2⟩, h3, h4, h5, h6, h7⟩ :=
    withRetryGo_spec op shouldRetry retries baseDelay retries 0 0 (by omega) hmax r hr
  exact ⟨⟨h1, h2⟩, h3, h4, h5, fun j hj => h6 j (Nat.zero_le j) hj, by simpa using h7⟩

/-- Witness for C8: the spec's scenario — `retries = 3`, `baseDelay = 100`,
an operation that fails (retryably) on its first two invocations and
succeeds on the third. -/
theorem withRetry_policy_spec_witness :
    (1 ≤ (withRetry (fun i => if i < 2 then Except.error 0 else Except.ok 42) 3 100
        (fun _ => true)).calls ∧
      (withRetry (fun i => if i < 2 then Except.error 0 else Except.ok 42) 3 100
        (fun _ => true)).calls ≤ 3) ∧
    (withRetry (fun i => if i < 2 then Except.error 0 else Except.ok 42) 3 100
        (fun _ => true)).outcome ≠ RetryOutcome.undef ∧
    (∀ a, (withRetry (fun i => if i < 2 then Except.error 0 else Except.ok 42) 3 100
        (fun _ => true)).outcome = RetryOutcome.ok a →
      (fun i => if i < 2 then Except.error 0 else Except.ok 42)
        ((withRetry (fun i => if i < 2 then Except.error 0 else Except.ok 42) 3 100
          (fun _ => true)).calls - 1) = Except.ok a) ∧
    (∀ e, (withRetry (fun i => if i < 2 then Except.error 0 else Except.ok 42) 3 100
        (fun _ => true)).outcome = RetryOutcome.err e →
      (fun i => if i < 2 then Except.error 0 else Except.ok 42)
        ((withRetry (fun i => if i < 2 then Except.error 0 else Except.ok 42) 3 100
          (fun _ => true)).calls - 1) = Except.error e ∧
        ((withRetry (fun i => if i < 2 then Except.error 0 else Except.ok 42) 3 100
          (fun _ => true)).calls = 3 ∨ (fun _ : Nat => true) e = false)) ∧
    (∀ j, j + 1 < (withRetry (fun i => if i < 2 then Except.error 0 else Except.ok 42) 3 100
        (fun _ => true)).calls →
      ∃ e, (fun i => if i < 2 then Except.error 0 else Except.ok 42) j = Except.error e ∧
        (fun _ : Nat => true) e = true) ∧
    (withRetry (fun i => if i < 2 then Except.error 0 else Except.ok 42) 3 100
      (fun _ => true)).delay =
      ∑ k in Finset.Ico 1 (withRetry (fun i => if i < 2 then Except.error 0 else Except.ok 42)
        3 100 (fun _ => true)).calls, 100 * 2 ^ k :=
  withRetry_policy_spec (fun i => if i < 2 then Except.error 0 else Except.ok 42)
    3 100 (fun _ => true) (by decide) _ rfl

/-- The spec scenario's concrete numbers, checked by evaluation: the
operation failing twice then succeeding under `retries = 3`,
`baseDelay = 100` is invoked exactly 3 times, resolves with its value, and
waits `200 + 400 = 600 ≥ 300` ms in total. -/
theorem withRetry_three_attempts_example :
    withRetry (fun i => if i < 2 then Except.error 0 else Except.ok 42) 3 100
      (fun _ => true) = ⟨RetryOutcome.ok 42, 3, 600⟩ ∧ (300 : Nat) ≤ 600 := by
  constructor
  · rfl
  · decide

/-- C10: calling `withRetry` with `retries = 0` never enters the loop body:
the promise resolves to `undefined` (no error raised) and the wrapped
operation is invoked zero times. -/
theorem withRetry_zero_retries_resolves_undefined {E A : Type}
    (op : Nat → Except E A) (baseDelay : Nat) (shouldRetry : E → Bool) :
    withRetry op 0 baseDelay shouldRetry =
      ⟨RetryOutcome.undef, 0, 0⟩ := rfl

/-! ### Cache-operation lemmas -/

theorem cacheGet_cacheSet_self (c : Cache) (key : String) (v : CacheVal) :
    cacheGet (cacheSet c key v) key = some v := by
  simp [cacheGet, cacheSet, List.find?]

theorem find?_filter_of_ne (c : Cache) (key k' : String) (hne : k' ≠ key) :
    (c.filter (fun p => p.1 ≠ key)).find? (fun p => p.1 = k') =
      c.find? (fun p => p.1 = k') := by
  induction c with
  | nil => rfl
  | cons hd tl ih =>
    rw [List.filter_cons]
    by_cases h2 : hd.1 = key
    · have hp : ¬ hd.1 = k' := by rw [h2]; exact fun h => hne h.symm
      rw [if_neg (by simp [h2]), ih, List.find?_cons_of_neg _ (by simp [hp])]
    · rw [if_pos (by simp [h2])]
      by_cases h1 : hd.1 = k'
      · rw [List.find?_cons_of_pos _ (by simp [h1]),
          List.find?_cons_of_pos _ (by simp [h1])]
      · rw [List.find?_cons_of_neg _ (by simp [h1]),
          List.find?_cons_of_neg _ (by simp [h1]), ih]

theorem cacheGet_cacheSet_ne (c : Cache) (key k' : String) (v : CacheVal)
    (hne : k' ≠ key) :
    cacheGet (cacheSet c key v) k' = cacheGet c k' := by
  unfold cacheGet cacheSet
  rw [List.find?_cons_of_neg _ (by simp [Ne.symm hne]),
    find?_filter_of_ne c key k' hne]

theorem cacheGet_cacheDel_self (c : Cache) (key : String) :
    cacheGet (cacheDel c key) key = none := by
  simp only [cacheGet, cacheDel]
  have hfind : (c.filter (fun p => p.1 ≠ key)).find? (fun p => p.1 = key) = none := by
    rw [List.find?_eq_none]
    intro p hp
    have h1 := List.of_mem_filter hp
    simp only [ne_eq, decide_not, Bool.not_eq_true', decide_eq_false_iff_not] at h1
    simp [h1]
  rw [hfind]
  rfl

theorem cacheGet_cacheDel_ne (c : Cache) (key k' : String) (hne : k' ≠ key) :
    cacheGet (cacheDel c key) k' = cacheGet c k' := by
  simp only [cacheGet, cacheDel]
  rw [find?_filter_of_ne c key k' hne]

theorem cacheSetNX_preserves_ne (c : Cache) (key k' : String) (v : CacheVal)
    (hne : k' ≠ key) :
    cacheGet (cacheSetNX c key v).2 k' = cacheGet c k' := by
  unfold cacheSetNX
  cases hx : cacheGet c key with
  | some w => simp
  | none =>
    simp only
    unfold cacheGet
    rw [List.find?_cons_of_neg _ (by simp [Ne.symm hne])]

/-! ### Key-namespace lemmas: the three `idem:` key shapes of a given
identity are pairwise distinct strings. -/

theorem lockKey_ne_respKey (k : String) : lockKeyOf k ≠ respKeyOf k := by
  intro h
  have hlen := congrArg String.length h
  simp only [lockKeyOf, respKeyOf, String.length_append] at hlen
  have h1 : ("idem:lock:" : String).length = 10 := rfl
  have h2 : ("idem:response:" : String).length = 14 := rfl
  omega

theorem bareKey_ne_respKey (k : String) : bareKeyOf k ≠ respKeyOf k := by
  intro h
  have hlen := congrArg String.length h
  simp only [bareKeyOf, respKeyOf, String.length_append] at hlen
  have h1 : ("idem:" : String).length = 5 := rfl
  have h2 : ("idem:response:" : String).length = 14 := rfl
  omega

theorem bareKey_ne_lockKey (k : String) : bareKeyOf k ≠ lockKeyOf k := by
  intro h
  have hlen := congrArg String.length h
  simp only [bareKeyOf, lockKeyOf, String.length_append] at hlen
  have h1 : ("idem:" : String).length = 5 := rfl
  have h2 : ("idem:lock:" : String).length = 10 := rfl
  omega

/-- C9: if the cache operation the admission path is executing throws —
the result-entry `get`, or the lock `set NX` reached when the lookup found
nothing — the middleware answers 503 with the structured
`{ message: "Idempotency service unavailable" }` body and never calls
`next()`, so the mutation handler is not invoked. -/
theorem cacheDown_admission_returns_503 (k : String) (c : Cache) (h : CacheHealth)
    (hdown : h.getFails = true ∨
      (cacheGet c (respKeyOf k) = none ∧ h.setFails = true)) :
    idempotencyMiddleware (some k) h c =
      (MWOut.respond 503 (RespBody.msg "Idempotency service unavailable"), c) ∧
    ∀ o, (idempotencyMiddleware (some k) h c).1 ≠ MWOut.callNext o := by
  rcases hdown with hget | ⟨hmiss, hset⟩
  · constructor
    · simp [idempotencyMiddleware, hget]
    · simp [idempotencyMiddleware, hget]
  · cases hg : h.getFails with
    | true =>
      constructor
      · simp [idempotencyMiddleware, hg]
      · simp [idempotencyMiddleware, hg]
    | false =>
      constructor
      · simp [idempotencyMiddleware, hg, hmiss, hset]
      · simp [idempotencyMiddleware, hg, hmiss, hset]

theorem cacheDown_admission_returns_503_witness :
    idempotencyMiddleware (some "key-2") ⟨true, true⟩ [] =
      (MWOut.respond 503 (RespBody.msg "Idempotency service unavailable"), []) ∧
    ∀ o, (idempotencyMiddleware (some "key-2") ⟨true, true⟩ []).1 ≠ MWOut.callNext o :=
  cacheDown_admission_returns_503 "key-2" [] ⟨true, true⟩ (Or.inl rfl)

/-- C2: evaluation at the failing input.  `saveIdempotentResponse` writes
the completed response under `idem:key-1`, but the admission path reads
`idem:response:key-1`; with the completed response (and only it) in the
cache, a subsequent admission of `key-1` finds no result entry, acquires
the lock and returns Proceed — the mutation would be re-executed instead of
replayed with the stored status and body. -/
theorem saveIdempotentResponse_key_not_read_back :
    cacheGet (saveIdempotentResponse "key-1" 200 (RespBody.msg "done") [])
        (bareKeyOf "key-1") = some (CacheVal.respVal 200 (RespBody.msg "done")) ∧
    cacheGet (saveIdempotentResponse "key-1" 200 (RespBody.msg "done") [])
        (respKeyOf "key-1") = none ∧
    (idempotencyMiddleware (some "key-1") ⟨false, false⟩
        (saveIdempotentResponse "key-1" 200 (RespBody.msg "done") [])).1 =
      MWOut.callNext (some "key-1") := by
  refine ⟨rfl, rfl, rfl⟩

/-- C3: evaluation at the failing input.  A PUT update-task request holding
the admission lock for `key-1` whose `prisma.task.update` throws `P2025`
(task not found) exits through the catch branch — which has no `finally` —
so the handler answers 404 via `next(AppError(...))` and the
`idem:lock:key-1` entry is still present in the final cache. -/
theorem putUpdateTask_error_path_keeps_lock :
    putUpdateTask ⟨some "key-1"⟩ ⟨Except.error DbErr.p2025, true⟩
        [(lockKeyOf "key-1", CacheVal.lockVal)] =
      (HandlerOut.nextErr 404 "Task not found. Please check the task ID.",
        [(lockKeyOf "key-1", CacheVal.lockVal)], false) ∧
    cacheGet (putUpdateTask ⟨some "key-1"⟩ ⟨Except.error DbErr.p2025, true⟩
        [(lockKeyOf "key-1", CacheVal.lockVal)]).2.1 (lockKeyOf "key-1") =
      some CacheVal.lockVal := by
  refine ⟨rfl, rfl⟩

/-- C5, counterexample: with the mutation committed (task id 42) and the
event publish exhausting its retries, the POST create-task handler does not
send the 201 response — it forwards `AppError(500, "Failed to create
task")` to the error middleware, even though the mutation did commit. -/
theorem post_publish_exhaustion_not_201 :
    (postCreateTask ⟨some "key-1", some 1, none⟩
        ⟨true, true, Except.ok 42, true, false⟩ []).1 =
      HandlerOut.nextErr 500 "Failed to create task" ∧
    (postCreateTask ⟨some "key-1", some 1, none⟩
        ⟨true, true, Except.ok 42, true, false⟩ []).1 ≠
      HandlerOut.sent 201 (createdBody 42) ∧
    (postCreateTask ⟨some "key-1", some 1, none⟩
        ⟨true, true, Except.ok 42, true, false⟩ []).2.2 = true := by
  refine ⟨rfl, by decide, rfl⟩

/-- C5, amended: when the create-task mutation has committed and the event
publish exhausts its retries, the mutation is not rolled back (the commit
flag stays set and the stored `idem:response:<k>` entry with the 201
response survives, so replays will return it), the lock is released, but
the triggering request is answered through the error path with
`AppError(500, "Failed to create task")` instead of the 201 response. -/
theorem post_publish_exhaustion_mutation_survives (req : PostReq) (env : PostEnv)
    (c : Cache) (k : String) (taskId : Nat)
    (hkey : req.idemKey = some k)
    (huser : req.userId.isSome → env.userExists = true)
    (hcat : req.categoryId.isSome → env.categoryExists = true)
    (hcreate : env.createResult = Except.ok taskId)
    (hvalid : env.eventValid = true)
    (hpub : env.publishOk = false) :
    (postCreateTask req env c).1 = HandlerOut.nextErr 500 "Failed to create task" ∧
    (postCreateTask req env c).2.2 = true ∧
    cacheGet (postCreateTask req env c).2.1 (respKeyOf k) =
      some (CacheVal.respVal 201 (createdBody taskId)) ∧
    cacheGet (postCreateTask req env c).2.1 (lockKeyOf k) = none := by
  have hu : (req.userId.isSome && !env.userExists) = false := by
    cases hu0 : req.userId.isSome with
    | false => rfl
    | true => simp [huser hu0]
  have hc : (req.categoryId.isSome && !env.categoryExists) = false := by
    cases hc0 : req.categoryId.isSome with
    | false => rfl
    | true => simp [hcat hc0]
  unfold postCreateTask
  rw [hkey]
  simp only [hu, hc, hcreate, hvalid, hpub, Bool.false_eq_true, if_false,
    Bool.not_true, Bool.not_false, if_true]
  refine ⟨trivial, trivial, ?_, ?_⟩
  · rw [cacheGet_cacheDel_ne _ _ _ (Ne.symm (lockKey_ne_respKey k)),
      cacheGet_cacheDel_ne _ _ _ (Ne.symm (lockKey_ne_respKey k)),
      cacheGet_cacheSet_self]
  · rw [cacheGet_cacheDel_self]

/-- Witness for C5's amended statement: identity `"key-1"`, user 1 and
category 2 both present, task 42 committed, publish retries exhausted. -/
theorem post_publish_exhaustion_mutation_survives_witness :
    (postCreateTask ⟨some "key-1", some 1, some 2⟩
        ⟨true, true, Except.ok 42, true, false⟩ []).1 =
      HandlerOut.nextErr 500 "Failed to create task" ∧
    (postCreateTask ⟨some "key-1", some 1, some 2⟩
        ⟨true, true, Except.ok 42, true, false⟩ []).2.2 = true ∧
    cacheGet (postCreateTask ⟨some "key-1", some 1, some 2⟩
        ⟨true, true, Except.ok 42, true, false⟩ []).2.1 (respKeyOf "key-1") =
      some (CacheVal.respVal 201 (createdBody 42)) ∧
    cacheGet (postCreateTask ⟨some "key-1", some 1, some 2⟩
        ⟨true, true, Except.ok 42, true, false⟩ []).2.1 (lockKeyOf "key-1") = none :=
  post_publish_exhaustion_mutation_survives ⟨some "key-1", some 1, some 2⟩
    ⟨true, true, Except.ok 42, true, false⟩ [] "key-1" 42 rfl
    (fun _ => rfl) (fun _ => rfl) rfl rfl rfl

/-- C4, counterexample: a consumed event (id `"e1"`, user 1) whose ledger
insert hits the `eventId` uniqueness conflict is NOT simply acknowledged:
the generic catch runs `handleFailure`, which republishes the message to
the retry tier with `x-retry-count: 1` before acking. -/
theorem unique_conflict_republished_to_retry :
    processMessage ⟨true, false, InsertOutcome.uniqueConflict⟩ []
        ⟨MsgBody.valid (some "e1") (some 1) "task.created", 0⟩ =
      ([BrokerAction.sendRetry 1, BrokerAction.ack], []) ∧
    processMessage ⟨true, false, InsertOutcome.uniqueConflict⟩ []
        ⟨MsgBody.valid (some "e1") (some 1) "task.created", 0⟩ ≠
      (([BrokerAction.ack] : List BrokerAction), ([] : Ledger)) := by
  refine ⟨rfl, by decide⟩

/-- C4, amended: an event whose side-effect work succeeds but whose ledger
insert throws (uniqueness conflict included) falls into the generic failure
path — republished to the retry tier with an incremented `x-retry-count`
(or to the dead-letter queue once the cap is reached) and the original
acknowledged; the ledger is left unchanged, so the redelivered copy is
skipped by the existing-record check rather than reprocessed. -/
theorem unique_conflict_goes_through_failure_path (id tp : String)
    (uid : Option Nat) (rc : Nat) (ledger : Ledger) (env : WorkerEnv)
    (hconf : env.insertOutcome = InsertOutcome.uniqueConflict)
    (hmem : ledger.contains id = false)
    (hemail : fakeEmailSender uid env = Except.ok ()) :
    processMessage env ledger ⟨MsgBody.valid (some id) uid tp, rc⟩ =
      ((if rc ≥ MAX_RETRIES then [BrokerAction.sendDLQ, BrokerAction.ack]
        else [BrokerAction.sendRetry (rc + 1), BrokerAction.ack]), ledger) ∧
    BrokerAction.ack ∈ (processMessage env ledger
      ⟨MsgBody.valid (some id) uid tp, rc⟩).1 := by
  have h1 : processMessage env ledger ⟨MsgBody.valid (some id) uid tp, rc⟩ =
      (handleFailure ⟨MsgBody.valid (some id) uid tp, rc⟩, ledger) := by
    unfold processMessage
    dsimp only
    rw [hmem, hemail, hconf]
    simp
  rw [h1]
  unfold handleFailure
  by_cases hrc : rc ≥ MAX_RETRIES
  · simp [hrc]
  · simp [hrc]

/-- Witness for C4's amended statement: event `"e1"`, no retries yet,
empty ledger, insert conflicting. -/
theorem unique_conflict_goes_through_failure_path_witness :
    processMessage ⟨true, false, InsertOutcome.uniqueConflict⟩ []
        ⟨MsgBody.valid (some "e1") (some 1) "task.created", 0⟩ =
      ((if (0 : Nat) ≥ MAX_RETRIES then [BrokerAction.sendDLQ, BrokerAction.ack]
        else [BrokerAction.sendRetry (0 + 1), BrokerAction.ack]), []) ∧
    BrokerAction.ack ∈ (processMessage ⟨true, false, InsertOutcome.uniqueConflict⟩ []
      ⟨MsgBody.valid (some "e1") (some 1) "task.created", 0⟩).1 :=
  unique_conflict_goes_through_failure_path "e1" "task.created" (some 1) 0 []
    ⟨true, false, InsertOutcome.uniqueConflict⟩ rfl rfl rfl

/-- C6, counterexample: a message whose body fails `JSON.parse` is not sent
directly to the dead-letter queue — the parse error lands in the generic
catch, so `handleFailure` republishes it to the retry tier
(`x-retry-count: 1`) and acks. -/
theorem malformed_body_republished_to_retry :
    processMessage ⟨true, false, InsertOutcome.ok⟩ [] ⟨MsgBody.malformed, 0⟩ =
      ([BrokerAction.sendRetry 1, BrokerAction.ack], []) ∧
    BrokerAction.sendDLQ ∉ (processMessage ⟨true, false, InsertOutcome.ok⟩ []
      ⟨MsgBody.malformed, 0⟩).1 := by
  refine ⟨rfl, by decide⟩

/-- C6, amended: only schema-invalid (but parseable) messages are routed
directly to the dead-letter queue and acknowledged; a malformed
(unparseable) body falls into the generic failure path instead, cycling
through the retry tier and reaching the dead-letter queue only after
`MAX_RETRIES`. -/
theorem invalid_direct_dlq_malformed_retries (env : WorkerEnv) (ledger : Ledger)
    (rc : Nat) :
    processMessage env ledger ⟨MsgBody.invalid, rc⟩ =
      ([BrokerAction.sendDLQ, BrokerAction.ack], ledger) ∧
    processMessage env ledger ⟨MsgBody.malformed, rc⟩ =
      ((if rc ≥ MAX_RETRIES then [BrokerAction.sendDLQ, BrokerAction.ack]
        else [BrokerAction.sendRetry (rc + 1), BrokerAction.ack]), ledger) := by
  constructor
  · rfl
  · unfold processMessage handleFailure
    by_cases hrc : rc ≥ MAX_RETRIES
    · simp [hrc]
    · simp [hrc]

/-- One round of the always-failing scenario: a message whose handler
throws a retryable error and whose retry count is still below the cap is
republished to the retry tier with the incremented header, acked off main,
and — when the retry TTL expires — dead-lettered back to main. -/
theorem workerRound_step (id tp : String) (uid : Nat) (io : InsertOutcome)
    (ledger : Ledger) (hmem : ledger.contains id = false) (k : Nat)
    (hk : k < MAX_RETRIES) :
    workerRound ⟨true, true, io⟩
        (⟨[⟨MsgBody.valid (some id) (some uid) tp, k⟩], [], []⟩, ledger) =
      (⟨[⟨MsgBody.valid (some id) (some uid) tp, k + 1⟩], [], []⟩, ledger) := by
  have hproc : processMessage ⟨true, true, io⟩ ledger
      ⟨MsgBody.valid (some id) (some uid) tp, k⟩ =
        ([BrokerAction.sendRetry (k + 1), BrokerAction.ack], ledger) := by
    unfold processMessage
    dsimp only
    rw [hmem]
    have hemail : fakeEmailSender (some uid) ⟨true, true, io⟩ = Except.error () := rfl
    rw [hemail]
    unfold handleFailure
    simp [Nat.not_le.mpr hk]
  unfold workerRound deliverOne
  dsimp only
  rw [hproc]
  unfold applyActions retryTTLExpire
  simp [List.foldl]

/-- C7: a message whose handler fails with a retryable error on every
attempt (here: `fakeEmailSender` throwing for event `id` with an attached,
found user) cycles main → retry → main, each failure republishing to the
retry tier with `x-retry-count` incremented — never skipping the retry
tier and never reaching the dead-letter queue early; after each of the
first `MAX_RETRIES` rounds it is back on main with count `k`; on the
delivery with count `MAX_RETRIES` it is republished to the dead-letter
queue and the original acked, so after `MAX_RETRIES + 1` rounds it sits in
the dead-letter queue and main and retry are empty. -/
theorem retryable_failure_exhausts_to_dlq (id tp : String) (uid : Nat)
    (io : InsertOutcome) (ledger : Ledger)
    (hmem : ledger.contains id = false) :
    (∀ k, k < MAX_RETRIES →
      processMessage ⟨true, true, io⟩ ledger
          ⟨MsgBody.valid (some id) (some uid) tp, k⟩ =
        ([BrokerAction.sendRetry (k + 1), BrokerAction.ack], ledger)) ∧
    processMessage ⟨true, true, io⟩ ledger
        ⟨MsgBody.valid (some id) (some uid) tp, MAX_RETRIES⟩ =
      ([BrokerAction.sendDLQ, BrokerAction.ack], ledger) ∧
    (∀ k, k ≤ MAX_RETRIES →
      (workerRound ⟨true, true, io⟩)^[k]
          (⟨[⟨MsgBody.valid (some id) (some uid) tp, 0⟩], [], []⟩, ledger) =
        (⟨[⟨MsgBody.valid (some id) (some uid) tp, k⟩], [], []⟩, ledger)) ∧
    (workerRound ⟨true, true, io⟩)^[MAX_RETRIES + 1]
        (⟨[⟨MsgBody.valid (some id) (some uid) tp, 0⟩], [], []⟩, ledger) =
      (⟨[], [], [⟨MsgBody.valid (some id) (some uid) tp, 0⟩]⟩, ledger) := by
  have hfail : ∀ k, k < MAX_RETRIES →
      processMessage ⟨true, true, io⟩ ledger
          ⟨MsgBody.valid (some id) (some uid) tp, k⟩ =
        ([BrokerAction.sendRetry (k + 1), BrokerAction.ack], ledger) := by
    intro k hk
    unfold processMessage
    dsimp only
    rw [hmem]
    have hemail : fakeEmailSender (some uid) ⟨true, true, io⟩ = Except.error () := rfl
    rw [hemail]
    unfold handleFailure
    simp [Nat.not_le.mpr hk]
  have hcap : processMessage ⟨true, true, io⟩ ledger
      ⟨MsgBody.valid (some id) (some uid) tp, MAX_RETRIES⟩ =
        ([BrokerAction.sendDLQ, BrokerAction.ack], ledger) := by
    unfold processMessage
    dsimp only
    rw [hmem]
    have hemail : fakeEmailSender (some uid) ⟨true, true, io⟩ = Except.error () := rfl
    rw [hemail]
    unfold handleFailure
    simp
  have hiter : ∀ k, k ≤ MAX_RETRIES →
      (workerRound ⟨true, true, io⟩)^[k]
          (⟨[⟨MsgBody.valid (some id) (some uid) tp, 0⟩], [], []⟩, ledger) =
        (⟨[⟨MsgBody.valid (some id) (some uid) tp, k⟩], [], []⟩, ledger) := by
    intro k
    induction k with
    | zero => intro _; rfl
    | succ k ih =>
      intro hk
      rw [Function.iterate_succ_apply', ih (by omega),
        workerRound_step id tp uid io ledger hmem k (by omega)]
  refine ⟨hfail, hcap, hiter, ?_⟩
  rw [Function.iterate_succ_apply', hiter MAX_RETRIES (le_refl _)]
  unfold workerRound deliverOne
  dsimp only
  rw [hcap]
  unfold applyActions retryTTLExpire
  simp [List.foldl]

/-- Witness for C7: event `"e1"` with user 1, empty ledger, insert oracle
irrelevant (the insert is never reached). -/
theorem retryable_failure_exhausts_to_dlq_witness :
    (∀ k, k < MAX_RETRIES →
      processMessage ⟨true, true, InsertOutcome.ok⟩ []
          ⟨MsgBody.valid (some "e1") (some 1) "task.created", k⟩ =
        ([BrokerAction.sendRetry (k + 1), BrokerAction.ack], [])) ∧
    processMessage ⟨true, true, InsertOutcome.ok⟩ []
        ⟨MsgBody.valid (some "e1") (some 1) "task.created", MAX_RETRIES⟩ =
      ([BrokerAction.sendDLQ, BrokerAction.ack], []) ∧
    (∀ k, k ≤ MAX_RETRIES →
      (workerRound ⟨true, true, InsertOutcome.ok⟩)^[k]
          (⟨[⟨MsgBody.valid (some "e1") (some 1) "task.created", 0⟩], [], []⟩, []) =
        (⟨[⟨MsgBody.valid (some "e1") (some 1) "task.created", k⟩], [], []⟩, [])) ∧
    (workerRound ⟨true, true, InsertOutcome.ok⟩)^[MAX_RETRIES + 1]
        (⟨[⟨MsgBody.valid (some "e1") (some 1) "task.created", 0⟩], [], []⟩, []) =
      (⟨[], [], [⟨MsgBody.valid (some "e1") (some 1) "task.created", 0⟩]⟩, []) :=
  retryable_failure_exhausts_to_dlq "e1" "task.created" 1 InsertOutcome.ok [] rfl

/-! ### C1: interleaved concurrent admissions of one identity

Each concurrent request running `idempotencyMiddleware` for the same
identity `k` performs two atomic cache operations in order: the
`get("idem:response:" ++ k)` read, then (when the read found nothing) the
`set(lockKey, "locked", NX)`.  A scheduler interleaves these steps across
`n` processes; no `complete`/`delete` step exists in this system, matching
the claim's "before `complete` runs" scope (and the lock TTL, the other way
a lock can vanish, is out of scope per the claim's "while the lock entry
exists"). -/

/-- The decision a process ends with (mirrors the spec's `Decision`;
`unavailable` is the middleware's 503 branch for an unparsable result
entry, unreachable from a well-formed cache). -/
inductive Decision where
  | proceed
  | conflict
  | replay (status : Nat) (body : RespBody)
  | unavailable
  deriving DecidableEq, Repr

/-- Program counter of one admission: before the result-entry read, before
the lock acquisition, or finished with a decision. -/
inductive ProcState where
  | pcRead
  | pcLock
  | pcDone (d : Decision)
  deriving DecidableEq, Repr

/-- The shared cache plus each process's state. -/
structure AdmSys where
  cache : Cache
  procs : List ProcState
  deriving DecidableEq

/-- One atomic step of process `i` admitting identity `k`: the result-entry
read (hit ⇒ Replay, miss ⇒ move to the lock acquisition) or the `NX` lock
acquisition (acquired ⇒ Proceed, held ⇒ Conflict).  Finished or
out-of-range processes do nothing. -/
def admStep (k : String) (s : AdmSys) (i : Nat) : AdmSys :=
  match s.procs[i]? with
  | none => s
  | some ProcState.pcRead =>
    match cacheGet s.cache (respKeyOf k) with
    | some (CacheVal.respVal st b) =>
      { s with procs := s.procs.set i (ProcState.pcDone (Decision.replay st b)) }
    | some CacheVal.lockVal =>
      { s with procs := s.procs.set i (ProcState.pcDone Decision.unavailable) }
    | none => { s with procs := s.procs.set i ProcState.pcLock }
  | some ProcState.pcLock =>
    match cacheSetNX s.cache (lockKeyOf k) CacheVal.lockVal with
    | (true, c') =>
      { cache := c', procs := s.procs.set i (ProcState.pcDone Decision.proceed) }
    | (false, _) =>
      { s with procs := s.procs.set i (ProcState.pcDone Decision.conflict) }
  | some (ProcState.pcDone _) => s

/-- Run a schedule (a list of process indices) from a start state. -/
def admRun (k : String) (s0 : AdmSys) (sched : List Nat) : AdmSys :=
  sched.foldl (admStep k) s0

/-- The inductive invariant for claim C1: (A) at most one process has
decided Proceed; (B) if the lock entry is absent, none has; (C) the result
entry never changes (no step writes it); (D) every decision reached is
Proceed, Conflict, or Replay. -/
def AdmInv (k : String) (c0 : Cache) (s : AdmSys) : Prop :=
  (∀ i j : Nat, s.procs[i]? = some (ProcState.pcDone Decision.proceed) →
    s.procs[j]? = some (ProcState.pcDone Decision.proceed) → i = j) ∧
  (cacheGet s.cache (lockKeyOf k) = none →
    ∀ i : Nat, s.procs[i]? ≠ some (ProcState.pcDone Decision.proceed)) ∧
  cacheGet s.cache (respKeyOf k) = cacheGet c0 (respKeyOf k) ∧
  (∀ (i : Nat) (d : Decision), s.procs[i]? = some (ProcState.pcDone d) →
    d = Decision.proceed ∨ d = Decision.conflict ∨
      ∃ st b, d = Decision.replay st b)

theorem getElem?_some_lt {α : Type} (l : List α) (i : Nat) (a : α)
    (h : l[i]? = some a) : i < l.length := by
  by_contra hc
  rw [List.getElem?_eq_none (by omega)] at h
  exact Option.noConfusion h

/-- Setting an in-range process entry to anything that is not a Proceed
decision (and whose decision, if any, is admissible) preserves `AdmInv`
when the cache is untouched. -/
theorem AdmInv_set_nonproceed (k : String) (c0 : Cache) (s : AdmSys) (i : Nat)
    (v : ProcState) (hilen : i < s.procs.length)
    (hv : v ≠ ProcState.pcDone Decision.proceed)
    (hvd : ∀ d, v = ProcState.pcDone d →
      d = Decision.proceed ∨ d = Decision.conflict ∨
        ∃ st b, d = Decision.replay st b)
    (hinv : AdmInv k c0 s) :
    AdmInv k c0 ⟨s.cache, s.procs.set i v⟩ := by
  obtain ⟨hA, hB, hC, hD⟩ := hinv
  refine ⟨?_, ?_, hC, ?_⟩
  · intro i' j' hi' hj'
    by_cases hii : i = i'
    · subst hii
      rw [List.getElem?_set_self hilen] at hi'
      exact absurd (Option.some.inj hi') hv
    · by_cases hjj : i = j'
      · subst hjj
        rw [List.getElem?_set_self hilen] at hj'
        exact absurd (Option.some.inj hj') hv
      · rw [List.getElem?_set_ne hii] at hi'
        rw [List.getElem?_set_ne hjj] at hj'
        exact hA i' j' hi' hj'
  · intro hlock i'
    by_cases hii : i = i'
    · subst hii
      rw [List.getElem?_set_self hilen]
      intro hcontra
      exact hv (Option.some.inj hcontra)
    · rw [List.getElem?_set_ne hii]
      exact hB hlock i'
  · intro i' d hd
    by_cases hii : i = i'
    · subst hii
      rw [List.getElem?_set_self hilen] at hd
      exact hvd d (Option.some.inj hd)
    · rw [List.getElem?_set_ne hii] at hd
      exact hD i' d hd

/-- `AdmInv` is preserved by every step of every process, for any initial
cache whose result entry is absent or a stored response. -/
theorem admStep_preserves (k : String) (c0 : Cache) (s : AdmSys) (i : Nat)
    (hgood : cacheGet c0 (respKeyOf k) = none ∨
      ∃ st b, cacheGet c0 (respKeyOf k) = some (CacheVal.respVal st b))
    (hinv : AdmInv k c0 s) :
    AdmInv k c0 (admStep k s i) := by
  obtain ⟨hA, hB, hC, hD⟩ := hinv
  unfold admStep
  cases hpc : s.procs[i]? with
  | none => exact ⟨hA, hB, hC, hD⟩
  | some ps =>
    have hilen : i < s.procs.length := getElem?_some_lt _ _ _ hpc
    cases ps with
    | pcRead =>
      cases hresp : cacheGet s.cache (respKeyOf k) with
      | some v =>
        cases v with
        | respVal st b =>
          exact AdmInv_set_nonproceed k c0 s i _ hilen (by simp)
            (fun d hd => Or.inr (Or.inr ⟨st, b,
              (ProcState.pcDone.inj hd).symm⟩)) ⟨hA, hB, hC, hD⟩
        | lockVal =>
          exfalso
          rw [hC] at hresp
          rcases hgood with hg | ⟨st, b, hg⟩ <;> rw [hg] at hresp <;>
            simp at hresp
      | none =>
        exact AdmInv_set_nonproceed k c0 s i _ hilen (by simp)
          (fun d hd => ProcState.noConfusion hd) ⟨hA, hB, hC, hD⟩
    | pcLock =>
      cases hnx : cacheSetNX s.cache (lockKeyOf k) CacheVal.lockVal with
      | mk acquired c' =>
        cases acquired with
        | false =>
          exact AdmInv_set_nonproceed k c0 s i _ hilen (by simp)
            (fun d hd => Or.inr (Or.inl (ProcState.pcDone.inj hd).symm))
            ⟨hA, hB, hC, hD⟩
        | true =>
          -- the lock was absent and has just been created
          have hfree : cacheGet s.cache (lockKeyOf k) = none := by
            by_contra hc
            cases hw : cacheGet s.cache (lockKeyOf k) with
            | none => exact hc hw
            | some w =>
              unfold cacheSetNX at hnx
              rw [hw] at hnx
              exact Bool.noConfusion (Prod.mk.inj hnx).1
          have hc' : c' = (lockKeyOf k, CacheVal.lockVal) :: s.cache := by
            unfold cacheSetNX at hnx
            rw [hfree] at hnx
            exact (Prod.mk.inj hnx).2.symm
          have hnoproceed := hB hfree
          refine ⟨?_, ?_, ?_, ?_⟩
          · intro i' j' hi' hj'
            by_cases hii : i = i'
            · by_cases hjj : i = j'
              · omega
              · rw [List.getElem?_set_ne hjj] at hj'
                exact absurd hj' (hnoproceed j')
            · rw [List.getElem?_set_ne hii] at hi'
              exact absurd hi' (hnoproceed i')
          · intro hlock
            exfalso
            rw [hc'] at hlock
            unfold cacheGet List.find? at hlock
            simp at hlock
          · have : cacheGet c' (respKeyOf k) = cacheGet s.cache (respKeyOf k) := by
              rw [← (Prod.mk.inj hnx).2]
              exact cacheSetNX_preserves_ne s.cache (lockKeyOf k) (respKeyOf k)
                CacheVal.lockVal (Ne.symm (lockKey_ne_respKey k))
            rw [this]
            exact hC
          · intro i' d hd
            by_cases hii : i = i'
            · subst hii
              rw [List.getElem?_set_self hilen] at hd
              exact Or.inl (ProcState.pcDone.inj (Option.some.inj hd)).symm
            · rw [List.getElem?_set_ne hii] at hd
              exact hD i' d hd
    | pcDone d => exact ⟨hA, hB, hC, hD⟩

/-- C1: for any number `n` of concurrent admissions of the same identity
`k` (each one: read the result entry, then atomically `set NX` the lock
entry), under any interleaving, and from any initial cache whose result
entry is absent or holds a stored response: at most one admission ever
decides Proceed — the system contains no `complete`/`delete` step, so this
is exactly "before `complete` runs" / "while the lock entry exists" — and
every decided admission got Proceed, Conflict (409), or Replay. -/
theorem concurrent_admissions_at_most_one_proceed (k : String) (c0 : Cache)
    (n : Nat) (sched : List Nat)
    (hgood : cacheGet c0 (respKeyOf k) = none ∨
      ∃ st b, cacheGet c0 (respKeyOf k) = some (CacheVal.respVal st b))
    (fin : AdmSys)
    (hfin : admRun k ⟨c0, List.replicate n ProcState.pcRead⟩ sched = fin) :
    (∀ i j : Nat, fin.procs[i]? = some (ProcState.pcDone Decision.proceed) →
      fin.procs[j]? = some (ProcState.pcDone Decision.proceed) → i = j) ∧
    (∀ (i : Nat) (d : Decision), fin.procs[i]? = some (ProcState.pcDone d) →
      d = Decision.proceed ∨ d = Decision.conflict ∨
        ∃ st b, d = Decision.replay st b) := by
  have hinit : AdmInv k c0 ⟨c0, List.replicate n ProcState.pcRead⟩ := by
    refine ⟨?_, ?_, rfl, ?_⟩
    · intro i j hi _
      exfalso
      rw [List.getElem?_replicate] at hi
      split at hi
      · exact ProcState.noConfusion (Option.some.inj hi)
      · exact Option.noConfusion hi
    · intro _ i hi
      rw [List.getElem?_replicate] at hi
      split at hi
      · exact ProcState.noConfusion (Option.some.inj hi)
      · exact Option.noConfusion hi
    · intro i d hd
      exfalso
      rw [List.getElem?_replicate] at hd
      split at hd
      · exact ProcState.noConfusion (Option.some.inj hd)
      · exact Option.noConfusion hd
  have hrun : ∀ (l : List Nat) (s : AdmSys), AdmInv k c0 s →
      AdmInv k c0 (l.foldl (admStep k) s) := by
    intro l
    induction l with
    | nil => exact fun s hs => hs
    | cons a t ih =>
      intro s hs
      exact ih (admStep k s a) (admStep_preserves k c0 s a hgood hs)
  have hfinal := hrun sched ⟨c0, List.replicate n ProcState.pcRead⟩ hinit
  rw [admRun] at hfin
  rw [hfin] at hfinal
  exact ⟨hfinal.1, hfinal.2.2.2⟩

/-- Witness for C1: three admissions of `"key-1"` on an empty cache under
the interleaving `[0, 1, 0, 1, 2, 2]` (both of process 0's and 1's steps
interleaved, then process 2 runs). -/
theorem concurrent_admissions_at_most_one_proceed_witness :
    (∀ i j : Nat,
      (admRun "key-1" ⟨[], List.replicate 3 ProcState.pcRead⟩
        [0, 1, 0, 1, 2, 2]).procs[i]? = some (ProcState.pcDone Decision.proceed) →
      (admRun "key-1" ⟨[], List.replicate 3 ProcState.pcRead⟩
        [0, 1, 0, 1, 2, 2]).procs[j]? = some (ProcState.pcDone Decision.proceed) →
      i = j) ∧
    (∀ (i : Nat) (d : Decision),
      (admRun "key-1" ⟨[], List.replicate 3 ProcState.pcRead⟩
        [0, 1, 0, 1, 2, 2]).procs[i]? = some (ProcState.pcDone d) →
      d = Decision.proceed ∨ d = Decision.conflict ∨
        ∃ st b, d = Decision.replay st b) :=
  concurrent_admissions_at_most_one_proceed "key-1" [] 3 [0, 1, 0, 1, 2, 2]
    (Or.inl rfl) _ rfl

/-- Contrast to the PUT handler: the POST create-task handler's `finally`
deletes the lock on every exit path, whatever the oracles did. -/
theorem postCreateTask_always_releases_lock (req : PostReq) (env : PostEnv)
    (c : Cache) (k : String) (hkey : req.idemKey = some k) :
    cacheGet (postCreateTask req env c).2.1 (lockKeyOf k) = none := by
  unfold postCreateTask
  rw [hkey]
  exact cacheGet_cacheDel_self _ _
